import Mathlib

/-!
Verification of the rusty-snake game core (src/main.rs).

A shallow embedding of the game's state machine: the controller record, the
per-tick step `continue_game_logic`, the event drain `handle_events`, the
coordinate mapper `From<CanvasSpace> for TerminalSpace`, and the main-loop
iteration.  Rust `u32`/`u16` coordinates are modelled as `Nat` (every
arithmetic operation on them in the source is guarded so no wrap occurs;
the one place overflow is conceivable, the coordinate mapper's `u32` sums,
carries an explicit `% 2 ^ 32`).  A Rust `expect` panic is modelled by
returning `none`.  The random number sources are modelled as explicit `Nat`
parameters carrying the raw `rand::random` draws; the source applies the
moduli itself.
-/

namespace RustySnake

/-- `const CANVAS_WIDTH: u16 = 46`. -/
def CANVAS_WIDTH : Nat := 46

/-- `const CANVAS_HEIGHT: u16 = 46`. -/
def CANVAS_HEIGHT : Nat := 46

/-- `const APPLE: [char; 2]`. -/
def APPLE : List Char := ['🍎', '🍏']

/-- `enum Direction { Up, Down, Left, Right, Stop }`. -/
inductive Direction where
  | Up
  | Down
  | Left
  | Right
  | Stop
deriving DecidableEq, Repr

/-- The key codes `continue_game_logic` and `handle_events` distinguish:
the four arrows, printable characters (for the quit key `q`), and a
catch-all for every other `crossterm::event::KeyCode`. -/
inductive KeyCode where
  | Up
  | Down
  | Left
  | Right
  | Char (c : Char)
  | Other
deriving DecidableEq, Repr

/-- The `crossterm::event::Event` variants the source matches on: key
events, mouse events, and a catch-all (resize events fall into the
ignored `_ => ()` arm). -/
inductive Event where
  | Key (code : KeyCode)
  | Mouse
  | Other
deriving DecidableEq, Repr

/-- `struct CanvasSpace((u32, u32))`: a logical grid cell. -/
abbrev CanvasSpace := Nat × Nat

/-- `struct Snake { elements: Vec<CanvasSpace>, current_direction: Direction }`. -/
structure Snake where
  elements : List CanvasSpace
  current_direction : Direction
deriving DecidableEq, Repr

/-- `struct Controller`.  The shared `event_queue` is not stored here: it is
shared mutable state, passed to `handle_events` explicitly as the list of
events present in the `Vec` at drain time (index 0 = pushed first). -/
structure Controller where
  should_close : Bool
  last_event : Option Event
  snake : Snake
  apple : Option (CanvasSpace × Char)
  score : Nat
  losed : Bool
deriving DecidableEq, Repr

/-- The three raw `rand::random` draws one tick consumes when the apple
respawns: `rand::random::<u16>()` for x and for y, `rand::random::<usize>()`
for the apple glyph. -/
structure Rand where
  x : Nat
  y : Nat
  t : Nat
deriving DecidableEq, Repr

/-- `impl From<CanvasSpace> for TerminalSpace` (src/main.rs:54-67):
`((terminal_width / 2).saturating_sub(CANVAS_WIDTH / 2) as u32 + x * 2 + 1,
  (terminal_height / 2).saturating_sub(CANVAS_HEIGHT / 4) as u32 + y + 1)`.
`Nat` subtraction is saturating, matching `saturating_sub`; the sums live in
`u32`, hence the `% 2 ^ 32`. -/
def terminalSpaceFrom (terminal_width terminal_height : Nat) (p : CanvasSpace) :
    Nat × Nat :=
  ((terminal_width / 2 - CANVAS_WIDTH / 2 + p.1 * 2 + 1) % 2 ^ 32,
   (terminal_height / 2 - CANVAS_HEIGHT / 4 + p.2 + 1) % 2 ^ 32)

/-- The body of the `while let Some(e) = queue.pop()` loop in
`handle_events` (src/main.rs:170-184), applied to one popped event. -/
def processEvent (c : Controller) (e : Event) : Controller :=
  match e with
  | Event.Key code =>
      { c with
        should_close := if code = KeyCode.Char 'q' then true else c.should_close,
        last_event := some (Event.Key code) }
  | Event.Mouse => { c with last_event := some Event.Mouse }
  | Event.Other => c

/-- `fn handle_events` (src/main.rs:167-187): `Vec::pop` removes the most
recently pushed element, so the queue is drained back to front. -/
def handle_events (c : Controller) (queue : List Event) : Controller :=
  queue.reverse.foldl processEvent c

/-- The direction-intent match at the top of `continue_game_logic`
(src/main.rs:192-201): each arrow key arm is guarded by
`snake.current_direction != <opposite>`. -/
def updateDirection (last : Option Event) (d : Direction) : Direction :=
  match last with
  | some (Event.Key code) =>
      match code with
      | KeyCode.Up => if d ≠ Direction.Down then Direction.Up else d
      | KeyCode.Down => if d ≠ Direction.Up then Direction.Down else d
      | KeyCode.Left => if d ≠ Direction.Right then Direction.Left else d
      | KeyCode.Right => if d ≠ Direction.Left then Direction.Right else d
      | _ => d
  | _ => d

/-- `Vec::rotate_right(1)`: the last element moves to the front. -/
def rotateRight1 (l : List CanvasSpace) : List CanvasSpace :=
  match l.getLast? with
  | none => l
  | some t => t :: l.dropLast

/-- The coordinate mutation of the new head (src/main.rs:221-227): each
directional arm is guarded by the boundary test; the fall-through arm sets
`losed`.  Returns the new head cell and whether the fall-through ran. -/
def moveHead (d : Direction) (p : CanvasSpace) : CanvasSpace × Bool :=
  match d with
  | Direction.Left => if p.1 > 0 then ((p.1 - 1, p.2), false) else (p, true)
  | Direction.Right =>
      if p.1 < CANVAS_WIDTH / 2 - 2 then ((p.1 + 1, p.2), false) else (p, true)
  | Direction.Up => if p.2 > 0 then ((p.1, p.2 - 1), false) else (p, true)
  | Direction.Down =>
      if p.2 < CANVAS_HEIGHT / 2 - 3 then ((p.1, p.2 + 1), false) else (p, true)
  | Direction.Stop => (p, true)

/-- The advance phase of `continue_game_logic` (src/main.rs:203-228):
when the direction is not `Stop`, remember the head, rotate the body right
by one, overwrite the new slot 0 with the old head, then move it one cell
with boundary guards.  `none` models the `expect` panic on an empty body. -/
def advanceSnake (c : Controller) : Option Controller :=
  if c.snake.current_direction ≠ Direction.Stop then
    match c.snake.elements with
    | [] => none
    | first :: _ =>
        let rotated := rotateRight1 c.snake.elements
        let moved := moveHead c.snake.current_direction first
        some { c with
               snake := { c.snake with elements := moved.1 :: rotated.tail },
               losed := if moved.2 then true else c.losed }
  else some c

/-- The apple-collision phase (src/main.rs:230-237): when an apple is
present and sits on the head cell, clear it, bump the score, and append a
duplicate of the last body element.  `none` models the `expect` panics. -/
def appleCollision (c : Controller) : Option Controller :=
  match c.apple with
  | some (apple_pos, _) =>
      match c.snake.elements with
      | [] => none
      | h :: rest =>
          if apple_pos = h then
            match (h :: rest).getLast? with
            | none => none
            | some t =>
                some { c with
                       apple := none,
                       score := c.score + 1,
                       snake := { c.snake with elements := c.snake.elements ++ [t] } }
          else some c
  | none => some c

/-- The apple-respawn phase (src/main.rs:239-250): when no apple is
present, place one at `(rx % (CANVAS_WIDTH/2 - 1), ry % (CANVAS_HEIGHT/2 - 2))`
with glyph `APPLE[rt % APPLE.len()]`. -/
def appleRespawn (c : Controller) (r : Rand) : Controller :=
  match c.apple with
  | none =>
      let rand_pos : CanvasSpace :=
        (r.x % (CANVAS_WIDTH / 2 - 1), r.y % (CANVAS_HEIGHT / 2 - 2))
      { c with apple := some (rand_pos, APPLE.getD (r.t % APPLE.length) ' ') }
  | some _ => c

/-- The self-collision loop body condition (src/main.rs:252-261): some
element at index ≥ 2 equals element 0. -/
def hasSelfCollision (elements : List CanvasSpace) : Bool :=
  match elements with
  | [] => false
  | h :: _ => (elements.drop 2).any (fun p => p = h)

/-- The self-collision phase (src/main.rs:252-261): iterate over the body,
skip indices 0 and 1, and set `losed` on any element equal to the head. -/
def selfCollision (c : Controller) : Controller :=
  if hasSelfCollision c.snake.elements then { c with losed := true } else c

/-- `fn continue_game_logic` (src/main.rs:189-262): direction intent,
advance, apple collision, apple respawn, self-collision check, in source
order.  `none` models an `expect` panic in any phase. -/
def continue_game_logic (c : Controller) (r : Rand) : Option Controller :=
  (advanceSnake
      { c with
        snake := { c.snake with
                   current_direction :=
                     updateDirection c.last_event c.snake.current_direction } }).bind
    fun c2 =>
      (appleCollision c2).map fun c3 =>
        selfCollision (appleRespawn c3 r)

/-- The `Controller` literal built in `main` (src/main.rs:304-318): one
snake element at `(CANVAS_WIDTH/4, CANVAS_HEIGHT/4 - 1)`, direction `Stop`,
no apple, score 0, not lost. -/
def initialController : Controller :=
  { should_close := false,
    last_event := none,
    snake := { elements := [(CANVAS_WIDTH / 4, CANVAS_HEIGHT / 4 - 1)],
               current_direction := Direction.Stop },
    apple := none,
    score := 0,
    losed := false }

/-- One iteration of the `for _ in tick_rx` main loop (src/main.rs:341-354):
drain the event queue, then run the game logic only while not lost (the
`else` branch only renders the end screen; `draw` does not mutate state). -/
def mainLoopStep (c : Controller) (queue : List Event) (r : Rand) :
    Option Controller :=
  if (handle_events c queue).losed = false then
    continue_game_logic (handle_events c queue) r
  else some (handle_events c queue)

/-- The controller states reachable within one game session: the startup
state, closed under main-loop iterations with arbitrary drained queues and
random draws. -/
inductive Reachable : Controller → Prop where
  | init : Reachable initialController
  | step {c c' : Controller} (q : List Event) (r : Rand) :
      Reachable c → mainLoopStep c q r = some c' → Reachable c'

/-- spec-side: the direction an arrow key requests. -/
def keyDirection : KeyCode → Option Direction
  | KeyCode.Up => some Direction.Up
  | KeyCode.Down => some Direction.Down
  | KeyCode.Left => some Direction.Left
  | KeyCode.Right => some Direction.Right
  | _ => none

/-- spec-side: `reversesInto intent current` holds when the intent is the
direct reverse of the current heading. -/
def reversesInto : Direction → Direction → Bool
  | Direction.Up, Direction.Down => true
  | Direction.Down, Direction.Up => true
  | Direction.Left, Direction.Right => true
  | Direction.Right, Direction.Left => true
  | _, _ => false

/-- spec-side: the first event in push order that the drain loop records
(key or mouse events; everything else falls into the ignored arm). -/
def firstObserved : List Event → Option Event
  | [] => none
  | Event.Key k :: _ => some (Event.Key k)
  | Event.Mouse :: _ => some Event.Mouse
  | Event.Other :: rest => firstObserved rest

/-- spec-side: whether an event is a press of the quit key. -/
def isQuitKey : Event → Bool
  | Event.Key k => k = KeyCode.Char 'q'
  | _ => false

/-- spec-side: the cell one unit from `q` in direction `d`, in `Int`
coordinates so that stepping left or up from 0 is expressible. -/
def specDestination (d : Direction) (q : Int × Int) : Int × Int :=
  match d with
  | Direction.Left => (q.1 - 1, q.2)
  | Direction.Right => (q.1 + 1, q.2)
  | Direction.Up => (q.1, q.2 - 1)
  | Direction.Down => (q.1, q.2 + 1)
  | Direction.Stop => q

/-- spec-side: the claim's logical grid
`[0, gridWidth/2 - 1] × [0, gridHeight/2 - 2]`, read as closed intervals. -/
def inClaimGrid (q : Int × Int) : Bool :=
  decide (0 ≤ q.1) && decide (q.1 ≤ (CANVAS_WIDTH : Int) / 2 - 1) &&
  decide (0 ≤ q.2) && decide (q.2 ≤ (CANVAS_HEIGHT : Int) / 2 - 2)

/-- spec-side: the grid of head cells the code's boundary guards accept,
`[0, gridWidth/2 - 2] × [0, gridHeight/2 - 3]`. -/
def inCodeGrid (q : Int × Int) : Bool :=
  decide (0 ≤ q.1) && decide (q.1 ≤ (CANVAS_WIDTH : Int) / 2 - 2) &&
  decide (0 ≤ q.2) && decide (q.2 ≤ (CANVAS_HEIGHT : Int) / 2 - 3)

/-- A controller whose snake head sits at `(21, 0)` heading right. -/
def boundaryCex : Controller :=
  { should_close := false,
    last_event := none,
    snake := { elements := [(21, 0)], current_direction := Direction.Right },
    apple := none,
    score := 0,
    losed := false }

/-- A mid-game controller whose head sits on the apple cell. -/
def appleTickController : Controller :=
  { should_close := false,
    last_event := none,
    snake := { elements := [(3, 4), (2, 4)],
               current_direction := Direction.Right },
    apple := some ((3, 4), '🍎'),
    score := 5,
    losed := false }

/-- A controller whose head coincides with its third body segment. -/
def selfHitController : Controller :=
  { should_close := false,
    last_event := none,
    snake := { elements := [(5, 5), (6, 5), (5, 5), (4, 5)],
               current_direction := Direction.Left },
    apple := none,
    score := 0,
    losed := false }

/-- A freshly started controller with the apple already on the stationary
head cell. -/
def stoppedAppleController : Controller :=
  { should_close := false,
    last_event := none,
    snake := { elements := [(11, 10)], current_direction := Direction.Stop },
    apple := some ((11, 10), '🍏'),
    score := 0,
    losed := false }

/-! Helper lemmas: which fields each phase leaves untouched, and how each
phase changes the body length. -/

theorem selfCollision_score (c : Controller) : (selfCollision c).score = c.score := by
  unfold selfCollision; split <;> rfl

theorem selfCollision_snake (c : Controller) : (selfCollision c).snake = c.snake := by
  unfold selfCollision; split <;> rfl

theorem appleRespawn_score (c : Controller) (r : Rand) :
    (appleRespawn c r).score = c.score := by
  unfold appleRespawn; cases c.apple <;> rfl

theorem appleRespawn_snake (c : Controller) (r : Rand) :
    (appleRespawn c r).snake = c.snake := by
  unfold appleRespawn; cases c.apple <;> rfl

theorem handle_events_nil (c : Controller) : handle_events c [] = c := rfl

theorem handle_events_cons (c : Controller) (e : Event) (q : List Event) :
    handle_events c (e :: q) = processEvent (handle_events c q) e := by
  simp [handle_events, List.foldl_append]

theorem processEvent_losed (c : Controller) (e : Event) :
    (processEvent c e).losed = c.losed := by
  cases e <;> rfl

theorem processEvent_score (c : Controller) (e : Event) :
    (processEvent c e).score = c.score := by
  cases e <;> rfl

theorem processEvent_snake (c : Controller) (e : Event) :
    (processEvent c e).snake = c.snake := by
  cases e <;> rfl

theorem processEvent_apple (c : Controller) (e : Event) :
    (processEvent c e).apple = c.apple := by
  cases e <;> rfl

theorem foldl_processEvent_preserves (l : List Event) (c : Controller) :
    (l.foldl processEvent c).losed = c.losed ∧
    (l.foldl processEvent c).score = c.score ∧
    (l.foldl processEvent c).snake = c.snake ∧
    (l.foldl processEvent c).apple = c.apple := by
  induction l generalizing c with
  | nil => exact ⟨rfl, rfl, rfl, rfl⟩
  | cons e tl ih =>
      rw [List.foldl_cons]
      refine ⟨?_, ?_, ?_, ?_⟩
      · rw [(ih (processEvent c e)).1, processEvent_losed]
      · rw [(ih (processEvent c e)).2.1, processEvent_score]
      · rw [(ih (processEvent c e)).2.2.1, processEvent_snake]
      · rw [(ih (processEvent c e)).2.2.2, processEvent_apple]

theorem handle_events_preserves (c : Controller) (q : List Event) :
    (handle_events c q).losed = c.losed ∧
    (handle_events c q).score = c.score ∧
    (handle_events c q).snake = c.snake ∧
    (handle_events c q).apple = c.apple :=
  foldl_processEvent_preserves q.reverse c

theorem hasSelfCollision_iff (l : List CanvasSpace) :
    hasSelfCollision l = true ↔
      ∃ i h, 2 ≤ i ∧ l[0]? = some h ∧ l[i]? = some h := by
  unfold hasSelfCollision
  cases l with
  | nil => simp
  | cons h tl =>
      simp only [List.any_eq_true, decide_eq_true_eq]
      constructor
      · rintro ⟨p, hp, rfl⟩
        rw [List.mem_iff_getElem?] at hp
        obtain ⟨j, hj⟩ := hp
        rw [List.getElem?_drop] at hj
        exact ⟨2 + j, p, by omega, by simp, hj⟩
      · rintro ⟨i, p, hi2, h0, hi⟩
        have hhp : h = p := by simpa using h0
        subst hhp
        refine ⟨h, ?_, rfl⟩
        rw [List.mem_iff_getElem?]
        refine ⟨i - 2, ?_⟩
        rw [List.getElem?_drop]
        rwa [Nat.add_sub_cancel' hi2]

theorem advanceSnake_stop (c : Controller)
    (h : c.snake.current_direction = Direction.Stop) : advanceSnake c = some c := by
  simp [advanceSnake, h]

theorem rotateRight1_length (l : List CanvasSpace) :
    (rotateRight1 l).length = l.length := by
  unfold rotateRight1
  cases hgl : l.getLast? with
  | none => rfl
  | some t =>
      have hne : l ≠ [] := by
        intro hnil; rw [hnil] at hgl; exact absurd hgl (by simp)
      have hpos : 0 < l.length := List.length_pos.mpr hne
      simp only [List.length_cons, List.length_dropLast]
      omega

theorem advanceSnake_length (c c' : Controller) (h : advanceSnake c = some c') :
    c'.snake.elements.length = c.snake.elements.length := by
  unfold advanceSnake at h
  split at h
  · cases hel : c.snake.elements with
    | nil => rw [hel] at h; exact absurd h (by simp)
    | cons first tl =>
        rw [hel] at h
        simp only [Option.some.injEq] at h
        subst h
        have ht : (rotateRight1 (first :: tl)).tail = (first :: tl).dropLast := by
          unfold rotateRight1
          cases hgl : (first :: tl).getLast? with
          | none => exact absurd hgl (by simp)
          | some t => simp
        simp only [hel, ht, List.length_cons, List.length_dropLast]
        omega
  · cases h; rfl

theorem appleCollision_length (c c' : Controller) (h : appleCollision c = some c') :
    c.snake.elements.length ≤ c'.snake.elements.length := by
  cases ha : c.apple with
  | none =>
      rw [show appleCollision c = some c from by simp [appleCollision, ha]] at h
      cases h; exact Nat.le_refl _
  | some pk =>
      obtain ⟨pos, k⟩ := pk
      cases hel : c.snake.elements with
      | nil =>
          rw [show appleCollision c = none from by
            simp [appleCollision, ha, hel]] at h
          exact absurd h (by simp)
      | cons hd tl =>
          by_cases hph : pos = hd
          · cases hgl : (hd :: tl).getLast? with
            | none => exact absurd hgl (by simp)
            | some t =>
                rw [show appleCollision c = some
                    { c with
                      apple := none,
                      score := c.score + 1,
                      snake := { c.snake with
                                 elements := c.snake.elements ++ [t] } } from by
                  simp [appleCollision, ha, hel, hph, hgl]] at h
                cases h
                simp only [hel, List.length_append, List.length_cons]
                omega
          · rw [show appleCollision c = some c from by
              simp [appleCollision, ha, hel, hph]] at h
            cases h
            rw [hel]

theorem continue_game_logic_length (c c' : Controller) (r : Rand)
    (h : continue_game_logic c r = some c') :
    c.snake.elements.length ≤ c'.snake.elements.length := by
  unfold continue_game_logic at h
  rw [Option.bind_eq_some] at h
  obtain ⟨c2, hadv, hmap⟩ := h
  rw [Option.map_eq_some'] at hmap
  obtain ⟨c3, hcol, hc'⟩ := hmap
  have h1 := advanceSnake_length _ _ hadv
  have h2 := appleCollision_length _ _ hcol
  have h3 : c'.snake = c3.snake := by
    rw [← hc', selfCollision_snake, appleRespawn_snake]
  rw [h3]
  exact le_trans (Nat.le_of_eq h1.symm) h2

theorem mainLoopStep_length (c c' : Controller) (q : List Event) (r : Rand)
    (h : mainLoopStep c q r = some c') :
    c.snake.elements.length ≤ c'.snake.elements.length := by
  simp only [mainLoopStep] at h
  split at h
  · have hle := continue_game_logic_length _ _ _ h
    rwa [(handle_events_preserves c q).2.2.1] at hle
  · cases h
    rw [(handle_events_preserves c q).2.2.1]

/-! The claims. -/

/-- C1: on a tick in which the snake's head cell equals the apple's cell,
the apple-collision phase increments the score by exactly 1, clears the
apple, and appends a duplicate of the current tail segment, so the length
grows by exactly 1; the remaining phases of the step (respawn and
self-collision check) keep that score and length. -/
theorem apple_collision_scores_and_grows (c : Controller) (p : CanvasSpace)
    (k : Char) (rest : List CanvasSpace)
    (ha : c.apple = some (p, k)) (he : c.snake.elements = p :: rest) :
    ∃ t c', (p :: rest).getLast? = some t ∧
      appleCollision c = some c' ∧
      c'.score = c.score + 1 ∧
      c'.apple = none ∧
      c'.snake.elements = c.snake.elements ++ [t] ∧
      c'.snake.elements.length = c.snake.elements.length + 1 ∧
      ∀ r : Rand,
        (selfCollision (appleRespawn c' r)).score = c.score + 1 ∧
        (selfCollision (appleRespawn c' r)).snake.elements.length =
          c.snake.elements.length + 1 := by
  cases hgl : (p :: rest).getLast? with
  | none => simp at hgl
  | some t =>
      refine ⟨t,
        { c with apple := none, score := c.score + 1,
                 snake := { c.snake with elements := c.snake.elements ++ [t] } },
        rfl, ?_, rfl, rfl, rfl, by simp, ?_⟩
      · simp [appleCollision, ha, he, hgl]
      · intro r
        rw [selfCollision_score, appleRespawn_score, selfCollision_snake,
          appleRespawn_snake]
        simp

theorem apple_collision_scores_and_grows_witness :
    appleTickController.apple = some ((3, 4), '🍎') ∧
    appleTickController.snake.elements = (3, 4) :: [(2, 4)] ∧
    (∃ t c', ((3, 4) :: [(2, 4)]).getLast? = some t ∧
      appleCollision appleTickController = some c' ∧
      c'.score = appleTickController.score + 1 ∧
      c'.apple = none ∧
      c'.snake.elements = appleTickController.snake.elements ++ [t] ∧
      c'.snake.elements.length = appleTickController.snake.elements.length + 1 ∧
      ∀ r : Rand,
        (selfCollision (appleRespawn c' r)).score =
          appleTickController.score + 1 ∧
        (selfCollision (appleRespawn c' r)).snake.elements.length =
          appleTickController.snake.elements.length + 1) :=
  ⟨rfl, rfl, apple_collision_scores_and_grows appleTickController (3, 4) '🍎'
    [(2, 4)] rfl rfl⟩

/-- C2 counterexample: with the head at `(21, 0)` heading right, the
destination `(22, 0)` lies inside the claim's grid
`[0, gridWidth/2 - 1] × [0, gridHeight/2 - 2]` read as closed intervals,
yet the advance step sets `losed` and leaves the head at `(21, 0)`. -/
theorem advance_claim_grid_counterexample :
    inClaimGrid (specDestination Direction.Right (21, 0)) = true ∧
    advanceSnake boundaryCex = some { boundaryCex with losed := true } ∧
    ({ boundaryCex with losed := true } : Controller).snake.elements =
      [(21, 0)] := by
  refine ⟨by decide, by decide, by decide⟩

/-- C2 (amended): for a tick with Direction ≠ Stop whose head lies in the
grid the code enforces, `[0, gridWidth/2 - 2] × [0, gridHeight/2 - 3]`
(that is, `[0, 21] × [0, 20]`), the advance step moves the head one unit in
the current direction and leaves `losed` unchanged exactly when the
destination cell stays inside that grid; otherwise it sets `losed = true`
and leaves the head coordinate unchanged (in particular, moving Left at
x = 0 does not decrement x below 0). -/
theorem advance_boundary_exact (c : Controller) (x y : Nat)
    (rest : List CanvasSpace)
    (hd : c.snake.current_direction ≠ Direction.Stop)
    (he : c.snake.elements = (x, y) :: rest)
    (hx : x ≤ 21) (hy : y ≤ 20) :
    ∃ c', advanceSnake c = some c' ∧
      ((inCodeGrid (specDestination c.snake.current_direction
            ((x : Int), (y : Int))) = true →
          c'.losed = c.losed ∧
          c'.snake.elements.head? =
            some ((specDestination c.snake.current_direction
                     ((x : Int), (y : Int))).1.toNat,
                  (specDestination c.snake.current_direction
                     ((x : Int), (y : Int))).2.toNat)) ∧
       (inCodeGrid (specDestination c.snake.current_direction
            ((x : Int), (y : Int))) = false →
          c'.losed = true ∧ c'.snake.elements.head? = some (x, y))) := by
  have hstep : advanceSnake c =
      some { c with
             snake := { c.snake with
                        elements := (moveHead c.snake.current_direction (x, y)).1 ::
                          (rotateRight1 ((x, y) :: rest)).tail },
             losed := if (moveHead c.snake.current_direction (x, y)).2 then true
                      else c.losed } := by
    unfold advanceSnake
    rw [if_pos hd, he]
  refine ⟨_, hstep, ?_, ?_⟩
  · cases hdir : c.snake.current_direction with
    | Stop => exact absurd hdir hd
    | Up =>
        simp_all [moveHead, specDestination, inCodeGrid, CANVAS_WIDTH,
          CANVAS_HEIGHT]
        intro h1 h2
        have hp : 0 < y := by omega
        simp [hp]
    | Down =>
        simp_all [moveHead, specDestination, inCodeGrid, CANVAS_WIDTH,
          CANVAS_HEIGHT]
        intro h1 h2
        have hp : y < 20 := by omega
        simp [hp]
    | Left =>
        simp_all [moveHead, specDestination, inCodeGrid, CANVAS_WIDTH,
          CANVAS_HEIGHT]
        intro h1 h2
        have hp : 0 < x := by omega
        simp [hp]
    | Right =>
        simp_all [moveHead, specDestination, inCodeGrid, CANVAS_WIDTH,
          CANVAS_HEIGHT]
        intro h1 h2
        have hp : x < 21 := by omega
        simp [hp]
  · cases hdir : c.snake.current_direction with
    | Stop => exact absurd hdir hd
    | Up =>
        simp_all [moveHead, specDestination, inCodeGrid, CANVAS_WIDTH,
          CANVAS_HEIGHT]
        intro h
        have hp : ¬ 0 < y := fun hpos => absurd (h hpos) (by omega)
        simp [hp]
    | Down =>
        simp_all [moveHead, specDestination, inCodeGrid, CANVAS_WIDTH,
          CANVAS_HEIGHT]
        intro h
        have hp : ¬ y < 20 := fun hlt => absurd (h (by omega)) (by omega)
        simp [hp]
    | Left =>
        simp_all [moveHead, specDestination, inCodeGrid, CANVAS_WIDTH,
          CANVAS_HEIGHT]
        intro h
        have hp : ¬ 0 < x := fun hpos => absurd (h hpos) (by omega)
        simp [hp]
    | Right =>
        simp_all [moveHead, specDestination, inCodeGrid, CANVAS_WIDTH,
          CANVAS_HEIGHT]
        intro h
        have hp : ¬ x < 21 := fun hlt => absurd (h (by omega)) (by omega)
        simp [hp]

theorem advance_boundary_exact_witness :
    boundaryCex.snake.current_direction ≠ Direction.Stop ∧
    boundaryCex.snake.elements = (21, 0) :: [] ∧
    (∃ c', advanceSnake boundaryCex = some c' ∧
      ((inCodeGrid (specDestination boundaryCex.snake.current_direction
            ((21 : Int), (0 : Int))) = true →
          c'.losed = boundaryCex.losed ∧
          c'.snake.elements.head? =
            some ((specDestination boundaryCex.snake.current_direction
                     ((21 : Int), (0 : Int))).1.toNat,
                  (specDestination boundaryCex.snake.current_direction
                     ((21 : Int), (0 : Int))).2.toNat)) ∧
       (inCodeGrid (specDestination boundaryCex.snake.current_direction
            ((21 : Int), (0 : Int))) = false →
          c'.losed = true ∧ c'.snake.elements.head? = some (21, 0)))) :=
  ⟨by decide, rfl, advance_boundary_exact boundaryCex 21 0 [] (by decide) rfl
    (by decide) (by decide)⟩

/-- C3: a directional key that is the direct reverse of the current heading
leaves the direction unchanged; any other directional key sets the heading
to the pressed direction. -/
theorem direction_reversal_rejected (d di : Direction) (k : KeyCode)
    (hk : keyDirection k = some di) :
    updateDirection (some (Event.Key k)) d =
      if reversesInto di d then d else di := by
  cases k <;>
    first
      | exact Option.noConfusion hk
      | (injection hk with hkd; subst hkd; cases d <;> rfl)

theorem direction_reversal_rejected_witness :
    keyDirection KeyCode.Up = some Direction.Up ∧
    updateDirection (some (Event.Key KeyCode.Up)) Direction.Down =
      if reversesInto Direction.Up Direction.Down then Direction.Down
      else Direction.Up :=
  ⟨rfl, direction_reversal_rejected Direction.Down Direction.Up KeyCode.Up rfl⟩

/-- C4: starting from `losed = false`, the self-collision check sets
`losed` exactly when the head cell recurs at some body index ≥ 2; a
coincidence only with index 0 or 1 never triggers it. -/
theorem self_collision_exempts_first_two (c : Controller) (hl : c.losed = false) :
    (selfCollision c).losed = true ↔
      ∃ i h, 2 ≤ i ∧ c.snake.elements[0]? = some h ∧
        c.snake.elements[i]? = some h := by
  rw [← hasSelfCollision_iff]
  unfold selfCollision
  split
  · simp_all
  · simp_all

theorem self_collision_exempts_first_two_witness :
    selfHitController.losed = false ∧
    ((selfCollision selfHitController).losed = true ↔
      ∃ i h, 2 ≤ i ∧ selfHitController.snake.elements[0]? = some h ∧
        selfHitController.snake.elements[i]? = some h) :=
  ⟨rfl, self_collision_exempts_first_two selfHitController rfl⟩

/-- C5: the coordinate mapper is the stated total function — for a `u16`
terminal size and an in-grid logical cell it returns
`(⌊tw/2⌋ ⊖ ⌊canvasW/2⌋ + x*2 + 1, ⌊th/2⌋ ⊖ ⌊canvasH/4⌋ + y + 1)` with
saturating subtraction, and logical `(0,0)` on an 80×24 terminal with the
46×46 canvas maps to `(18, 2)`. -/
theorem coordinate_mapper_formula (tw th x y : Nat)
    (htw : tw < 2 ^ 16) (hth : th < 2 ^ 16) (hx : x ≤ 21) (hy : y ≤ 20) :
    terminalSpaceFrom tw th (x, y) =
      (tw / 2 - CANVAS_WIDTH / 2 + x * 2 + 1,
       th / 2 - CANVAS_HEIGHT / 4 + y + 1) ∧
    terminalSpaceFrom 80 24 (0, 0) = (18, 2) := by
  refine ⟨?_, by decide⟩
  unfold terminalSpaceFrom CANVAS_WIDTH CANVAS_HEIGHT
  refine Prod.ext ?_ ?_ <;> simp only [] <;>
    exact Nat.mod_eq_of_lt (by omega)

theorem coordinate_mapper_formula_witness :
    (80 : Nat) < 2 ^ 16 ∧ (24 : Nat) < 2 ^ 16 ∧ (0 : Nat) ≤ 21 ∧
    (0 : Nat) ≤ 20 ∧
    (terminalSpaceFrom 80 24 (0, 0) =
      (80 / 2 - CANVAS_WIDTH / 2 + 0 * 2 + 1,
       24 / 2 - CANVAS_HEIGHT / 4 + 0 + 1) ∧
     terminalSpaceFrom 80 24 (0, 0) = (18, 2)) :=
  ⟨by decide, by decide, by decide, by decide,
   coordinate_mapper_formula 80 24 0 0 (by decide) (by decide) (by decide)
     (by decide)⟩

/-- C6: `losed` is terminal — once it holds, a main-loop iteration (with
any drained events and random draws) keeps `losed = true` and leaves the
score, snake and apple untouched; only the end screen is rendered. -/
theorem lost_state_terminal (c : Controller) (q : List Event) (r : Rand)
    (h : c.losed = true) :
    ∃ c', mainLoopStep c q r = some c' ∧
      c'.losed = true ∧ c'.score = c.score ∧
      c'.snake = c.snake ∧ c'.apple = c.apple := by
  obtain ⟨h1, h2, h3, h4⟩ := handle_events_preserves c q
  refine ⟨handle_events c q, ?_, by rw [h1, h], by rw [h2], by rw [h3], by rw [h4]⟩
  simp only [mainLoopStep]
  rw [h1, h]
  simp

theorem lost_state_terminal_witness :
    ({ initialController with losed := true } : Controller).losed = true ∧
    (∃ c', mainLoopStep { initialController with losed := true } [] ⟨0, 0, 0⟩ =
        some c' ∧
      c'.losed = true ∧
      c'.score = ({ initialController with losed := true } : Controller).score ∧
      c'.snake = ({ initialController with losed := true } : Controller).snake ∧
      c'.apple =
        ({ initialController with losed := true } : Controller).apple) :=
  ⟨rfl, lost_state_terminal { initialController with losed := true } [] ⟨0, 0, 0⟩
    rfl⟩

/-- C7: every reachable controller has a non-empty snake body; the startup
snake has exactly one element, and no main-loop iteration ever shrinks the
body. -/
theorem snake_never_shrinks (c : Controller) (h : Reachable c) :
    1 ≤ c.snake.elements.length ∧
    initialController.snake.elements.length = 1 ∧
    ∀ q r c', mainLoopStep c q r = some c' →
      c.snake.elements.length ≤ c'.snake.elements.length := by
  refine ⟨?_, rfl, fun q r c' hs => mainLoopStep_length c c' q r hs⟩
  induction h with
  | init => decide
  | step q r hc hstep ih => exact le_trans ih (mainLoopStep_length _ _ _ _ hstep)

theorem snake_never_shrinks_witness :
    1 ≤ initialController.snake.elements.length ∧
    initialController.snake.elements.length = 1 ∧
    ∀ q r c', mainLoopStep initialController q r = some c' →
      initialController.snake.elements.length ≤ c'.snake.elements.length :=
  snake_never_shrinks initialController Reachable.init

/-- C8 counterexample: draining a queue that buffered Up then Down leaves
the Up key — the earliest pushed event, not the most recently pushed one —
as the last observed event. -/
theorem drain_latest_event_counterexample :
    (handle_events initialController
        [Event.Key KeyCode.Up, Event.Key KeyCode.Down]).last_event =
      some (Event.Key KeyCode.Up) ∧
    (some (Event.Key KeyCode.Up) : Option Event) ≠
      some (Event.Key KeyCode.Down) := by
  decide

/-- C8 (amended): the drain pops most-recently-pushed first and each pop
overwrites the record, so afterwards the last observed event is the
earliest-pushed key or mouse event of the queue (unchanged when there is
none); the close-requested flag is set exactly when it already was or some
drained event is the quit key, regardless of its position. -/
theorem drain_records_earliest_event (c : Controller) (q : List Event) :
    (handle_events c q).last_event = (firstObserved q).or c.last_event ∧
    (handle_events c q).should_close = (c.should_close || q.any isQuitKey) := by
  induction q with
  | nil => simp [handle_events_nil, firstObserved, Option.or]
  | cons e rest ih =>
      rw [handle_events_cons]
      cases e with
      | Key k =>
          refine ⟨by simp [processEvent, firstObserved, Option.or], ?_⟩
          simp only [processEvent, List.any_cons, isQuitKey]
          rcases ih with ⟨-, ih2⟩
          by_cases hq : k = KeyCode.Char 'q' <;>
            simp [hq, ih2, Bool.or_comm, Bool.or_assoc, Bool.or_left_comm]
      | Mouse =>
          refine ⟨by simp [processEvent, firstObserved, Option.or], ?_⟩
          simp only [processEvent, List.any_cons, isQuitKey]
          rcases ih with ⟨-, ih2⟩
          simp [ih2]
      | Other =>
          refine ⟨?_, ?_⟩
          · simp only [processEvent, firstObserved]
            exact ih.1
          · simp only [processEvent, List.any_cons, isQuitKey]
            rcases ih with ⟨-, ih2⟩
            simp [ih2]

/-- C10: on a tick whose effective direction is `Stop`, the advance phase
leaves every segment in place, yet the apple phases still run — an apple
on the stationary head cell is consumed, the score increments by 1, and
the body grows by a duplicated tail segment without the snake ever having
moved. -/
theorem stopped_tick_growth (c : Controller) (r : Rand) (p : CanvasSpace)
    (k : Char) (rest : List CanvasSpace)
    (hd : updateDirection c.last_event c.snake.current_direction = Direction.Stop)
    (ha : c.apple = some (p, k)) (he : c.snake.elements = p :: rest) :
    ∃ t c', (p :: rest).getLast? = some t ∧
      continue_game_logic c r = some c' ∧
      c'.score = c.score + 1 ∧
      c'.snake.elements = c.snake.elements ++ [t] ∧
      c'.snake.current_direction = Direction.Stop ∧
      ∃ c2,
        appleCollision
          { c with snake := { c.snake with
                              current_direction := Direction.Stop } } = some c2 ∧
        c2.apple = none ∧ c2.score = c.score + 1 := by
  cases hgl : (p :: rest).getLast? with
  | none => simp at hgl
  | some t =>
      have hcol : appleCollision
          { c with snake := { c.snake with
                              current_direction := Direction.Stop } } =
          some { c with
                 apple := none,
                 score := c.score + 1,
                 snake := { elements := c.snake.elements ++ [t],
                            current_direction := Direction.Stop } } := by
        simp [appleCollision, ha, he, hgl]
      have hstep : continue_game_logic c r =
          some (selfCollision (appleRespawn
            { c with
              apple := none,
              score := c.score + 1,
              snake := { elements := c.snake.elements ++ [t],
                         current_direction := Direction.Stop } } r)) := by
        unfold continue_game_logic
        rw [hd]
        rw [advanceSnake_stop _ rfl]
        rw [Option.some_bind, hcol, Option.map_some']
      refine ⟨t, _, rfl, hstep, ?_, ?_, ?_, _, hcol, rfl, rfl⟩
      · rw [selfCollision_score, appleRespawn_score]
      · rw [selfCollision_snake, appleRespawn_snake]
      · rw [selfCollision_snake, appleRespawn_snake]

theorem stopped_tick_growth_witness :
    updateDirection stoppedAppleController.last_event
      stoppedAppleController.snake.current_direction = Direction.Stop ∧
    (∃ t c', ((11, 10) :: ([] : List CanvasSpace)).getLast? = some t ∧
      continue_game_logic stoppedAppleController ⟨0, 0, 0⟩ = some c' ∧
      c'.score = stoppedAppleController.score + 1 ∧
      c'.snake.elements = stoppedAppleController.snake.elements ++ [t] ∧
      c'.snake.current_direction = Direction.Stop ∧
      ∃ c2,
        appleCollision
          { stoppedAppleController with
            snake := { stoppedAppleController.snake with
                       current_direction := Direction.Stop } } = some c2 ∧
        c2.apple = none ∧ c2.score = stoppedAppleController.score + 1) :=
  ⟨rfl, stopped_tick_growth stoppedAppleController ⟨0, 0, 0⟩ (11, 10) '🍏' []
    rfl rfl rfl⟩

end RustySnake
